import Mathlib

/-!
Verification of the session document cache and conversation-reconciliation
engine of the QwenOCR pipeline (src/pipelines/pipeline.py,
src/pipelines/ocr_utils/document_graph.py, src/pipelines/ocr_utils/file_utils.py,
src/old_variant.py).

Python dictionaries are modelled as insertion-ordered association lists,
Python sets of strings as duplicate-free lists with membership-only use,
optional dictionary keys as `Option`, and Python exceptions as
`Except String`.  External collaborators (HTTP download, the OCR engine,
the PDF page renderer) are oracle parameters returning `Except`.
-/

namespace QwenOCR

/-- Content item of a chat message: a text block, an image-url block, or any
other item (non-dict items and dicts of other types are ignored by the code). -/
inductive ContentItem where
  | text (t : String)
  | imageUrl (u : String)
  | other (tag : String)
deriving DecidableEq, Repr

/-- Message content is either a plain string or a list of content items. -/
inductive Content where
  | str (s : String)
  | items (l : List ContentItem)
deriving DecidableEq, Repr

/-- A chat message: `role` and `id` model `msg.get("role")` / `msg.get("id")`,
`content` models `msg.get("content", "")`.  The `... spread ...` update in the
source keeps `role` and `id` and replaces `content`. -/
structure Msg where
  role : Option String
  id : Option String
  content : Content
deriving DecidableEq, Repr

/-- One value of `file_cache_session`: the dictionary written by
`_process_files_with_paddleocr` / `_process_vlm_node`.  A field is `none` when
the corresponding key is absent from the dictionary. -/
structure CacheEntry where
  message_id : Option String
  user_msg_index : Option Nat
  filename : Option String
  images : Option (List ContentItem)
  ocr_markdown : Option String
deriving DecidableEq, Repr

/-- Ordered association-list lookup, modelling `d.get(k)` on a Python dict. -/
def alLookup {β : Type} [DecidableEq α] (k : α) : List (α × β) → Option β
  | [] => none
  | (k₀, v) :: rest => if k₀ = k then some v else alLookup k rest

/-- Ordered association-list update, modelling `d[k] = v` on a Python dict:
an existing key keeps its position, a new key is appended. -/
def alInsert {β : Type} [DecidableEq α] (k : α) (v : β) : List (α × β) → List (α × β)
  | [] => [(k, v)]
  | (k₀, v₀) :: rest => if k₀ = k then (k₀, v) :: rest else (k₀, v₀) :: alInsert k v rest

/-- Append `v` to the list stored under `k`, modelling
`d.setdefault(k, []).append(v)` as done when grouping cache entries. -/
def multiAppend {β : Type} [DecidableEq α] (k : α) (v : β) :
    List (α × List β) → List (α × List β)
  | [] => [(k, [v])]
  | (k₀, vs) :: rest =>
      if k₀ = k then (k₀, vs ++ [v]) :: rest else (k₀, vs) :: multiAppend k v rest

/-- Session cache: `file_cache_session`, a dict from file id to entry. -/
abbrev Cache := List (String × CacheEntry)

/-- Python truthiness of an optional string (`None` and `""` are falsy). -/
def optTruthy : Option String → Bool
  | some s => s ≠ ""
  | none => false

/-- Python `a or b` on two optional strings. -/
def optOr (a b : Option String) : Option String := if optTruthy a then a else b

/-- Python `str(x)` as used in an f-string on a possibly-`None` filename. -/
def pyShow : Option String → String
  | some s => s
  | none => "None"

/-- The filename marker searched for in message text, `"Имя файла:"`. -/
def fileLabel : String := "Имя файла:"

/-- ASCII whitespace, the characters stripped by `str.strip()` in the texts
this pipeline handles. -/
def isSpaceChar (c : Char) : Bool :=
  c = ' ' || c = '\t' || c = '\n' || c = '\r'

/-- Python `s.strip()` modelled over the character list of the string. -/
def pyStrip (s : String) : String :=
  ⟨((s.data.dropWhile isSpaceChar).reverse.dropWhile isSpaceChar).reverse⟩

/-- Does the character list start with the given separator. -/
def startsWithChars : List Char → List Char → Bool
  | _, [] => true
  | [], _ :: _ => false
  | a :: as, b :: bs => a = b && startsWithChars as bs

/-- Fuel-driven scan behind `pySplitOn`: split a character list at every
occurrence of the (non-empty) separator. -/
def splitOnCharsGo (sep : List Char) : Nat → List Char → List Char → List (List Char)
  | 0, l, cur => [cur.reverse ++ l]
  | _ + 1, [], cur => [cur.reverse]
  | fuel + 1, c :: rest, cur =>
      if startsWithChars (c :: rest) sep then
        cur.reverse :: splitOnCharsGo sep fuel ((c :: rest).drop sep.length) []
      else splitOnCharsGo sep fuel rest (c :: cur)

/-- Python `s.split(sep)` for a non-empty separator. -/
def pySplitOn (s sep : String) : List String :=
  (splitOnCharsGo sep.data (s.data.length + 1) s.data []).map (fun l => ⟨l⟩)

/-- Python `sep.join(parts)`. -/
def pyJoin (sep : String) : List String → String
  | [] => ""
  | p :: rest => rest.foldl (fun acc q => acc ++ sep ++ q) p

/-- Substring test `fileLabel in t`, via the split. -/
def hasLabel (t : String) : Bool := (pySplitOn t fileLabel).length ≠ 1

/-- One line of the filename scan: `line.split(fileLabel)[-1].strip()`,
kept only when non-empty. -/
def labelNameOfLine (line : String) : Option String :=
  if hasLabel line then
    let fn := pyStrip ((pySplitOn line fileLabel).getLastD "")
    if fn ≠ "" then some fn else none
  else none

/-- Filenames already recorded in a text block: the per-line scan guarded by
the whole-text substring test, as in the source. -/
def namesFromText (t : String) : List String :=
  if hasLabel t then (pySplitOn t "\n").filterMap labelNameOfLine else []

/-- Insert a string into a set modelled as a duplicate-free list. -/
def setInsert (x : String) (s : List String) : List String :=
  if x ∈ s then s else s ++ [x]

/-- Accumulator of the single pass over a list-valued message content:
collected text parts, pre-existing image items, and filenames found in text. -/
structure SplitAcc where
  texts : List String
  images : List ContentItem
  names : List String
deriving DecidableEq, Repr

/-- One step of the content scan of `_update_messages_with_files`: text items
contribute their text and any `fileLabel` names, image items are collected,
everything else is ignored. -/
def splitStep (acc : SplitAcc) : ContentItem → SplitAcc
  | .text t =>
      { acc with
        texts := acc.texts ++ [t]
        names := (namesFromText t).foldl (fun ns n => setInsert n ns) acc.names }
  | .imageUrl u => { acc with images := acc.images ++ [.imageUrl u] }
  | .other _ => acc

/-- Split original message content into free text, pre-existing inline images,
and filenames already present in the text (string content contributes no
names and no images, as in the source). -/
def splitContent : Content → String × List ContentItem × List String
  | .str s => (pyStrip s, [], [])
  | .items l =>
      let acc := l.foldl splitStep ⟨[], [], []⟩
      (pyStrip (pyJoin "\n" acc.texts), acc.images, acc.names)

/-- View of one cache entry as grouped by the rehydrator:
`{"file_id", "filename", "images", "ocr_markdown"}` built with `.get`. -/
structure FileInfo where
  file_id : String
  filename : Option String
  images : Option (List ContentItem)
  ocr_markdown : Option String
deriving DecidableEq, Repr

/-- Build the grouped view of a cache entry. -/
def mkFileInfo (fid : String) (e : CacheEntry) : FileInfo :=
  ⟨fid, e.filename, e.images, e.ocr_markdown⟩

/-- Group the session cache by `user_msg_index`, modelling the
`files_by_index` loop of the current rehydrator.  An entry without the
`user_msg_index` key raises `KeyError`, modelled as `Except.error`. -/
def filesByIndexGo (acc : List (Nat × List FileInfo)) :
    Cache → Except String (List (Nat × List FileInfo))
  | [] => .ok acc
  | (fid, e) :: rest =>
      match e.user_msg_index with
      | none => .error "KeyError: user_msg_index"
      | some idx => filesByIndexGo (multiAppend idx (mkFileInfo fid e) acc) rest

/-- Entry point of the grouping pass of the current rehydrator. -/
def filesByIndex (cache : Cache) : Except String (List (Nat × List FileInfo)) :=
  filesByIndexGo [] cache

/-- Group the session cache by `message_id`, modelling the
`files_by_message` loop of the old-variant rehydrator. -/
def filesByMessageGo (acc : List (String × List FileInfo)) :
    Cache → Except String (List (String × List FileInfo))
  | [] => .ok acc
  | (fid, e) :: rest =>
      match e.message_id with
      | none => .error "KeyError: message_id"
      | some mid => filesByMessageGo (multiAppend mid (mkFileInfo fid e) acc) rest

/-- Entry point of the grouping pass of the old-variant rehydrator. -/
def filesByMessage (cache : Cache) : Except String (List (String × List FileInfo)) :=
  filesByMessageGo [] cache

/-- Truthiness of an optional image list (`None` and `[]` are falsy). -/
def imagesTruthy : Option (List ContentItem) → Bool
  | some l => l ≠ []
  | none => false

/-- The pairs `(f["filename"], f["ocr_markdown"])` for files whose
`ocr_markdown` is truthy (present and non-empty). -/
def ocrPartsOf (files : List FileInfo) : List (Option String × String) :=
  files.filterMap fun f =>
    match f.ocr_markdown with
    | some md => if md ≠ "" then some (f.filename, md) else none
    | none => none

/-- The joined document block
`"\n\n".join(fileLabel + " " + fn + "\n\n" + md for fn, md in parts)`.
Concatenating a `None` filename with a string raises `TypeError` in Python,
modelled as `Except.error`. -/
def docBlock (parts : List (Option String × String)) : Except String String :=
  if parts.all (fun p => p.1.isSome) then
    .ok (pyJoin "\n\n"
      (parts.map fun p => fileLabel ++ " " ++ p.1.getD "" ++ "\n\n" ++ p.2))
  else .error "TypeError: can only concatenate str (not NoneType) to str"

/-- Add each name to the set of seen filenames, modelling the
`existing_file_names.add(fn)` loop over the document parts. -/
def addAll (names : List (Option String)) (fns : List (Option String)) :
    List (Option String) :=
  fns.foldl (fun ns fn => if ns.contains fn then ns else ns ++ [fn]) names

/-- The rendered-images loop shared by both rehydrators: for every file whose
`images` is truthy, emit a `fileLabel` text item unless the filename was seen
already, record the filename (even `None`), and append the image items. -/
def appendImageBlocks : List FileInfo → List (Option String) → List ContentItem →
    List ContentItem × List (Option String)
  | [], names, acc => (acc, names)
  | f :: rest, names, acc =>
      match f.images with
      | some imgs =>
          if imgs = [] then appendImageBlocks rest names acc
          else if names.contains f.filename then
            appendImageBlocks rest names (acc ++ imgs)
          else
            appendImageBlocks rest (names ++ [f.filename])
              (acc ++ [.text (fileLabel ++ " " ++ pyShow f.filename)] ++ imgs)
      | none => appendImageBlocks rest names acc

/-- Render one user turn in the current rehydrator
(`_update_messages_with_files` of src/pipelines/pipeline.py): free text first,
then the document block and the labelled image blocks, then the pre-existing
inline images; no mode labels are emitted. -/
def renderUserTurn (files : List FileInfo) (userText : String)
    (existingImages : List ContentItem) (names0 : List (Option String)) :
    Except String (List ContentItem) :=
  let base : List ContentItem := if userText ≠ "" then [.text userText] else []
  let parts := ocrPartsOf files
  let hasAnyImgs := (files.any fun f => imagesTruthy f.images) || existingImages ≠ []
  if parts ≠ [] then
    (docBlock parts).map fun db =>
      (appendImageBlocks files (addAll names0 (parts.map (fun p => p.1)))
        (base ++ [.text db])).1 ++ existingImages
  else if hasAnyImgs then
    .ok ((appendImageBlocks files names0 base).1 ++ existingImages)
  else
    .ok (base ++ existingImages)

/-- Mode label of the old-variant document branch. -/
def ocrModeLabel : String := "[MODE: OCR_POSTPROCESS]\n\n"

/-- Mode label of the old-variant image branch. -/
def visionModeLabel : String := "[MODE: VISION_ANALYSIS]\n\n"

/-- Mode label of the old-variant text-only branch. -/
def textOnlyModeLabel : String := "[MODE: TEXT_ONLY]\n\n"

/-- Render one user turn in the old-variant rehydrator
(`_update_messages_with_files` of src/old_variant.py): same structure as the
current one but each branch is tagged with a mode label. -/
def renderUserTurnOld (files : List FileInfo) (userText : String)
    (existingImages : List ContentItem) (names0 : List (Option String)) :
    Except String (List ContentItem) :=
  let base : List ContentItem := if userText ≠ "" then [.text userText] else []
  let parts := ocrPartsOf files
  let hasAnyImgs := (files.any fun f => imagesTruthy f.images) || existingImages ≠ []
  if parts ≠ [] then
    (docBlock parts).map fun db =>
      (appendImageBlocks files (addAll names0 (parts.map (fun p => p.1)))
        (base ++ [.text (ocrModeLabel ++ db)])).1 ++ existingImages
  else if hasAnyImgs then
    .ok ((appendImageBlocks files names0 (base ++ [.text visionModeLabel])).1
        ++ existingImages)
  else
    .ok (base ++ [.text textOnlyModeLabel] ++ existingImages)

/-- Message loop of the current rehydrator: non-user messages pass through,
user messages are re-rendered and counted by `user_message_index`. -/
def renderMsgs (byIdx : List (Nat × List FileInfo)) :
    List Msg → Nat → Except String (List Msg)
  | [], _ => .ok []
  | m :: rest, uidx =>
      if m.role = some "user" then
        let s := splitContent m.content
        let files := (alLookup uidx byIdx).getD []
        match renderUserTurn files s.1 s.2.1 (s.2.2.map some) with
        | .error e => .error e
        | .ok content =>
            (renderMsgs byIdx rest (uidx + 1)).map
              (fun tl => { m with content := .items content } :: tl)
      else
        (renderMsgs byIdx rest uidx).map (fun tl => m :: tl)

/-- The current rehydrator `Pipeline._update_messages_with_files`
(src/pipelines/pipeline.py, two parameters: messages and the session cache). -/
def updateMessagesWithFiles (messages : List Msg) (cache : Cache) :
    Except String (List Msg) :=
  match filesByIndex cache with
  | .error e => .error e
  | .ok byIdx => renderMsgs byIdx messages 0

/-- Message loop of the old-variant rehydrator: a user message with an `id`
(even `""`, the check is `is not None`) looks its files up by that id;
otherwise the positional index is translated through `message_order`. -/
def renderMsgsOld (byMsg : List (String × List FileInfo)) (order : List String) :
    List Msg → Nat → Except String (List Msg)
  | [], _ => .ok []
  | m :: rest, uidx =>
      if m.role = some "user" then
        let s := splitContent m.content
        let files :=
          match m.id with
          | some i => (alLookup i byMsg).getD []
          | none =>
              if uidx < order.length then
                (alLookup (order.getD uidx "") byMsg).getD []
              else []
        match renderUserTurnOld files s.1 s.2.1 (s.2.2.map some) with
        | .error e => .error e
        | .ok content =>
            (renderMsgsOld byMsg order rest (uidx + 1)).map
              (fun tl => { m with content := .items content } :: tl)
      else
        (renderMsgsOld byMsg order rest uidx).map (fun tl => m :: tl)

/-- The old-variant rehydrator `Pipeline._update_messages_with_files`
(src/old_variant.py, three parameters: messages, cache, message order). -/
def updateMessagesWithFilesOld (messages : List Msg) (cache : Cache)
    (order : List String) : Except String (List Msg) :=
  match filesByMessage cache with
  | .error e => .error e
  | .ok byMsg => renderMsgsOld byMsg order messages 0

/-- A file as supplied by the host in `body["files"]`: `id` and the nested
`file.id`, the nested `file.meta.content_type`, the download `url`, and the
display `name` (absent modelled as `none`). -/
structure HostFile where
  id : Option String
  nestedId : Option String
  contentType : Option String
  url : String
  name : Option String
deriving DecidableEq, Repr

/-- The dedup key `f.get("id") or f.get("file", ...).get("id")`, collapsed to
`none` when the resulting value is falsy. -/
def truthyId (f : HostFile) : Option String :=
  match optOr f.id f.nestedId with
  | some s => if s = "" then none else some s
  | none => none

/-- A reserved new file, the dictionary built by `_detect_new_files_node`. -/
structure NewFile where
  url : String
  name : String
  id : String
deriving DecidableEq, Repr

/-- Build the new-file record `f.get("name", "unknown.pdf")` etc. -/
def mkNewFile (f : HostFile) (fid : String) : NewFile :=
  ⟨f.url, f.name.getD "unknown.pdf", fid⟩

/-- Content-type filter of the detector: only `application/pdf` passes. -/
def isPdf (f : HostFile) : Bool := f.contentType = some "application/pdf"

/-- New-file scan of `_detect_new_files_node`: a file with a truthy id not in
`processed_file_ids` is appended to the new list and its id is reserved
immediately, before the next file is examined. -/
def detectGo : List HostFile → List String → List NewFile → List NewFile × List String
  | [], pr, acc => (acc, pr)
  | f :: rest, pr, acc =>
      match truthyId f with
      | some fid =>
          if fid ∈ pr then detectGo rest pr acc
          else detectGo rest (setInsert fid pr) (acc ++ [mkNewFile f fid])
      | none => detectGo rest pr acc

/-- The new-file detector `_detect_new_files_node` restricted to its dedup
core: filter to PDFs, then scan against the session's reserved ids.  Returns
the reserved new files and the updated reservation set. -/
def detectNewFiles (files : List HostFile) (processed : List String) :
    List NewFile × List String :=
  detectGo (files.filter isPdf) processed []

/-- Per-file download-and-render loop of `process_pdf_to_base64_images`
(src/pipelines/ocr_utils/file_utils.py): a file without a url is skipped,
a per-file failure of the `fetch` collaborator is logged and skipped, a
success with a truthy id stores the page images under that id. -/
def processGo (fetch : NewFile → Except String (List ContentItem)) :
    List NewFile → List (String × List ContentItem) → List (String × List ContentItem)
  | [], acc => acc
  | f :: rest, acc =>
      if f.url = "" then processGo fetch rest acc
      else
        match fetch f with
        | .ok blocks =>
            if f.id ≠ "" then processGo fetch rest (alInsert f.id blocks acc)
            else processGo fetch rest acc
        | .error _ => processGo fetch rest acc

/-- The secondary extraction method `process_pdf_to_base64_images`: an empty
file list or a missing token yields an empty result, otherwise the per-file
loop runs; no exception ever escapes this function. -/
def processPdfToBase64Images (fetch : NewFile → Except String (List ContentItem))
    (token : String) (files : List NewFile) : List (String × List ContentItem) :=
  if files = [] then []
  else if token = "" then []
  else processGo fetch files []

/-- Cache-write loop shared by the fallback branch of
`_process_files_with_paddleocr` (where `uidx` is `some` of the current user
message index) and by `_process_vlm_node` (where the entry has no
`user_msg_index` key): every file of the batch gets an images-kind entry,
`files_images.get(file_id, [])` defaulting to the empty list. -/
def writeImagesLoop (mid : String) (uidx : Option Nat)
    (imgs : List (String × List ContentItem)) :
    List NewFile → Cache → Cache
  | [], c => c
  | f :: rest, c =>
      writeImagesLoop mid uidx imgs rest
        (alInsert f.id
          { message_id := some mid, user_msg_index := uidx,
            filename := some f.name,
            images := some ((alLookup f.id imgs).getD []),
            ocr_markdown := none } c)

/-- External collaborators of the extraction dispatcher: the batch download
to temporary paths, the per-document OCR prediction (collapsed with the
markdown post-processing), and the per-file download-and-render used by the
secondary method. -/
structure PaddleOracle where
  download : List NewFile → Except String (List String)
  predict : String → Except String String
  fetch : NewFile → Except String (List ContentItem)

/-- Primary per-file OCR loop of `_process_files_with_paddleocr`: each
success writes an `ocr_markdown` entry immediately; the first per-document
failure is re-raised (`Bool` result `true`), leaving earlier writes in the
cache. -/
def primaryGo (predict : String → Except String String) (mid : String) (uidx : Nat) :
    List (NewFile × String) → Cache → Cache × Bool
  | [], c => (c, false)
  | (f, p) :: rest, c =>
      match predict p with
      | .ok md =>
          primaryGo predict mid uidx rest
            (alInsert f.id
              { message_id := some mid, user_msg_index := some uidx,
                filename := some f.name, images := none,
                ocr_markdown := some md } c)
      | .error _ => (c, true)

/-- The primary attempt of `_process_files_with_paddleocr`: batch download
(raising on any failed file, as `download_pdfs_to_temp_paths` does), the
`No temp paths` check, then the per-file OCR loop over `zip(files, paths)`.
The `Bool` is `true` exactly when the attempt raised. -/
def primaryPhase (o : PaddleOracle) (mid : String) (uidx : Nat)
    (files : List NewFile) (cache : Cache) : Cache × Bool :=
  match o.download files with
  | .error _ => (cache, true)
  | .ok paths =>
      if paths = [] then (cache, true)
      else primaryGo o.predict mid uidx (files.zip paths) cache

/-- Result of one run of the extraction dispatcher: the updated session
cache, how many times the secondary method ran, and whether an exception
escaped to the caller. -/
structure PaddleResult where
  cache : Cache
  fallbackRuns : Nat
  raised : Bool
deriving Repr

/-- The extraction dispatcher `_process_files_with_paddleocr`
(src/pipelines/pipeline.py): on any primary failure the whole batch falls
back to the secondary method, whose result overwrites every entry of the
batch; the secondary method itself catches all per-file errors, so no
exception escapes on that path. -/
def processFilesWithPaddleocr (o : PaddleOracle) (token : String)
    (files : List NewFile) (mid : String) (uidx : Nat) (cache : Cache) :
    PaddleResult :=
  match primaryPhase o mid uidx files cache with
  | (c, false) => ⟨c, 0, false⟩
  | (c, true) =>
      let imgs := processPdfToBase64Images o.fetch token files
      ⟨writeImagesLoop mid (some uidx) imgs files c, 1, false⟩

/-- The ids of the user messages that carry a truthy id, the
`order_from_messages` list of `_cache_results_node` and
`_update_messages_node`. -/
def orderFromMessages (messages : List Msg) : List String :=
  messages.filterMap fun m =>
    if m.role = some "user" then
      match m.id with
      | some i => if i ≠ "" then some i else none
      | none => none
    else none

/-- Effective turn order computed by `_update_messages_node`: if any user
message carries an id the collected id list replaces the order wholesale;
otherwise the state order is kept and the current message id is appended
when absent. -/
def effectiveOrder (mid : Option String) (stateOrder : List String)
    (messages : List Msg) : List String :=
  let fm := orderFromMessages messages
  if fm ≠ [] then fm
  else
    if optTruthy mid ∧ mid.getD "" ∉ stateOrder then
      stateOrder ++ [mid.getD ""]
    else stateOrder

/-- Per-session mutable state handed out by `_ensure_cache_initialized`. -/
structure SessionState where
  processed : List String
  cache : Cache
deriving Repr

/-- One inlet request as seen by the session machinery: the attached files,
the metadata user id and chat id (as re-read by the graph's validate node),
the current message id from the metadata, and the message history. -/
structure InletReq where
  files : List HostFile
  metaUserId : Option String
  chatId : Option String
  mid : Option String
  messages : List Msg
deriving Repr

/-- The `skip_processing` flag set by `_validate_input_node`: `inlet` builds
the initial graph state without a `"user"` key (src/pipelines/pipeline.py,
`initial_state`), so the node recomputes
`user_id = metadata.get("user_id") or user.get("id")` over an empty user
dict — metadata only — and marks the request skipped whenever that user id
or the metadata chat id is falsy, even when `inlet` itself had resolved a
user id from the user dict. -/
def validateSkip (r : InletReq) : Bool :=
  !(optTruthy r.metaUserId && optTruthy r.chatId)

/-- Result of one inlet request at the session level: the new session state
and the ids of the batch handed to the extraction collaborator. -/
structure StepResult where
  state : SessionState
  dispatched : List String
deriving Repr

/-- One inlet request through the processing graph with
`USING_PADDLEOCR = False`.  `_detect_new_files_node` runs unconditionally
after the validate node and reserves every new file id; only then does
`_route_new_files` decide the route: the batch is dispatched to
`process_pdf_to_base64_images` and one images-kind entry is written per file
(`_process_vlm_node`) only when the request is not skipped, the batch is
non-empty, and a current message id is present.  On the skipped route the
reservations made by the detector survive while nothing is dispatched or
written. -/
def inletStep (fetch : NewFile → Except String (List ContentItem)) (token : String)
    (s : SessionState) (r : InletReq) : StepResult :=
  let d := detectNewFiles r.files s.processed
  if validateSkip r = false ∧ d.1 ≠ [] ∧ optTruthy r.mid then
    let imgs := processPdfToBase64Images fetch token d.1
    ⟨⟨d.2, writeImagesLoop (r.mid.getD "") none imgs d.1 s.cache⟩, d.1.map (fun f => f.id)⟩
  else
    ⟨⟨d.2, s.cache⟩, []⟩

/-- Request metadata, `body.get("metadata", ...)`. -/
structure Metadata where
  userId : Option String
  chatId : Option String
  messageId : Option String
deriving Repr

/-- The request body as read by `inlet`. -/
structure Body where
  files : List HostFile
  metadata : Metadata
  messages : List Msg
deriving Repr

/-- The pipeline's keyed per-session stores `_processed_files_cache` and
`_file_cache`, nested dicts user id → chat id → session structure. -/
structure PipelineStore where
  processedFiles : List (String × List (String × List String))
  fileCache : List (String × List (String × Cache))
deriving Repr

/-- Lookup in a two-level keyed store with a default. -/
def storeLookup2 {β : Type} (st : List (String × List (String × β)))
    (u c : String) (d : β) : β :=
  ((alLookup u st).bind (fun inner => alLookup c inner)).getD d

/-- Write-back into a two-level keyed store. -/
def storeInsert2 {β : Type} (u c : String) (v : β)
    (st : List (String × List (String × β))) : List (String × List (String × β)) :=
  alInsert u (alInsert c v ((alLookup u st).getD [])) st

/-- The lazy per-session initialisation `_ensure_cache_initialized`: both
keyed stores get an entry for `(user_id, chat_id)` if absent, existing
session state is kept. -/
def ensureCacheInitialized (st : PipelineStore) (u c : String) : PipelineStore :=
  ⟨storeInsert2 u c (storeLookup2 st.processedFiles u c []) st.processedFiles,
   storeInsert2 u c (storeLookup2 st.fileCache u c []) st.fileCache⟩

/-- The inlet entry point `Pipeline.inlet` (src/pipelines/pipeline.py): the
session key is `metadata.get("user_id") or user.get("id")` and
`metadata.get("chat_id")`; when either is falsy the body is returned as is
and no session structures are touched.  Otherwise the session is initialised,
the graph runs one step, and the rehydrated messages replace
`body["messages"]` (the graph's update node hands the message list and the
session cache to the two-parameter rehydrator; its extra third argument is
not a parameter of that method). -/
def inletTop (fetch : NewFile → Except String (List ContentItem)) (token : String)
    (st : PipelineStore) (body : Body) (userDictId : Option String) :
    Except String Body × PipelineStore :=
  let uid := optOr body.metadata.userId userDictId
  let cid := body.metadata.chatId
  if optTruthy uid ∧ optTruthy cid then
    let u := uid.getD ""
    let c := cid.getD ""
    let st1 := ensureCacheInitialized st u c
    let s : SessionState :=
      ⟨storeLookup2 st1.processedFiles u c [], storeLookup2 st1.fileCache u c []⟩
    let res := inletStep fetch token s
      ⟨body.files, body.metadata.userId, body.metadata.chatId,
        body.metadata.messageId, body.messages⟩
    let st2 : PipelineStore :=
      ⟨storeInsert2 u c res.state.processed st1.processedFiles,
       storeInsert2 u c res.state.cache st1.fileCache⟩
    match updateMessagesWithFiles body.messages res.state.cache with
    | .error e => (.error e, st2)
    | .ok ms => (.ok { body with messages := ms }, st2)
  else
    (.ok body, st)

/-- A rehydrator call with explicit state threading: the source function
builds only fresh lists and dictionaries (`new_content`, `files_by_index`,
the `updated_msg` dict spread) and performs no in-place write to its
arguments, so a call returns its two inputs unchanged alongside the output. -/
def updateMessagesWithFilesCall (messages : List Msg) (cache : Cache) :
    Except String (List Msg) × List Msg × Cache :=
  (updateMessagesWithFiles messages cache, messages, cache)

/-- The old-variant rehydrator call with explicit state threading; the
old-variant source likewise performs no in-place write to the message list,
the cache, or the order list. -/
def updateMessagesWithFilesOldCall (messages : List Msg) (cache : Cache)
    (order : List String) :
    Except String (List Msg) × List Msg × Cache × List String :=
  (updateMessagesWithFilesOld messages cache order, messages, cache, order)

/-- The id list of a batch of new files. -/
def idsOf (files : List NewFile) : List String := files.map fun f => f.id

/-- Text section of a rendered user turn: the original free text when
non-empty. -/
def textSection (t : String) : List ContentItem :=
  if t ≠ "" then [.text t] else []

/-- Document section of a rendered user turn: the concatenated
document-text block when at least one document artifact is present. -/
def docSection (files : List FileInfo) : List ContentItem :=
  if ocrPartsOf files = [] then []
  else
    match docBlock (ocrPartsOf files) with
    | .ok db => [.text db]
    | .error _ => []

/-- Image section of a rendered user turn: the labelled rendered-image
blocks, with the filenames of the document section already marked seen. -/
def imageSection (files : List FileInfo) (ns : List (Option String)) :
    List ContentItem :=
  (appendImageBlocks files (addAll ns ((ocrPartsOf files).map (fun p => p.1))) []).1

section Lemmas

theorem alLookup_alInsert_self {β : Type} [DecidableEq α] (k : α) (v : β)
    (l : List (α × β)) : alLookup k (alInsert k v l) = some v := by
  induction l with
  | nil => simp [alInsert, alLookup]
  | cons hd tl ih =>
      obtain ⟨k₀, v₀⟩ := hd
      by_cases h : k₀ = k <;> simp [alInsert, alLookup, h, ih]

theorem alLookup_alInsert_of_ne {β : Type} [DecidableEq α] {k k' : α} (v : β)
    (l : List (α × β)) (h : k' ≠ k) :
    alLookup k' (alInsert k v l) = alLookup k' l := by
  have h' : ¬ k = k' := fun e => h e.symm
  induction l with
  | nil => simp [alInsert, alLookup, h']
  | cons hd tl ih =>
      obtain ⟨k₀, v₀⟩ := hd
      by_cases h₀ : k₀ = k
      · subst h₀
        simp [alInsert, alLookup, h']
      · simp [alInsert, alLookup, h₀, ih]

theorem appendImageBlocks_acc (files : List FileInfo) :
    ∀ (ns : List (Option String)) (acc : List ContentItem),
      appendImageBlocks files ns acc =
        (acc ++ (appendImageBlocks files ns []).1, (appendImageBlocks files ns []).2) := by
  induction files with
  | nil => intro ns acc; simp [appendImageBlocks]
  | cons f rest ih =>
      intro ns acc
      match h : f.images with
      | none => simp [appendImageBlocks, h, ih ns acc]
      | some imgs =>
          by_cases he : imgs = []
          · simp [appendImageBlocks, h, he, ih ns acc]
          · by_cases hc : ns.contains f.filename
            · rw [appendImageBlocks, appendImageBlocks]
              simp only [h, if_neg he, if_pos hc]
              rw [ih ns (acc ++ imgs), ih ns ([] ++ imgs)]
              simp
            · rw [appendImageBlocks, appendImageBlocks]
              simp only [h, if_neg he, if_neg hc]
              rw [ih (ns ++ [f.filename])
                    (acc ++ [ContentItem.text (fileLabel ++ " " ++ pyShow f.filename)] ++ imgs),
                  ih (ns ++ [f.filename])
                    ([] ++ [ContentItem.text (fileLabel ++ " " ++ pyShow f.filename)] ++ imgs)]
              simp

theorem appendImageBlocks_of_no_truthy {files : List FileInfo}
    (h : ∀ f ∈ files, imagesTruthy f.images = false) :
    ∀ (ns : List (Option String)) (acc : List ContentItem),
      appendImageBlocks files ns acc = (acc, ns) := by
  induction files with
  | nil => intro ns acc; simp [appendImageBlocks]
  | cons f rest ih =>
      intro ns acc
      have hf := h f (by simp)
      have hrest : ∀ g ∈ rest, imagesTruthy g.images = false := by
        intro g hg; exact h g (by simp [hg])
      match hi : f.images with
      | none => simp [appendImageBlocks, hi, ih hrest ns acc]
      | some imgs =>
          have : imgs = [] := by
            by_contra hne
            rw [hi] at hf
            simp [imagesTruthy, hne] at hf
          simp [appendImageBlocks, hi, this, ih hrest ns acc]

theorem docBlock_ok {parts : List (Option String × String)}
    (h : ∀ p ∈ parts, p.1.isSome = true) :
    docBlock parts = .ok (pyJoin "\n\n"
      (parts.map fun p => fileLabel ++ " " ++ p.1.getD "" ++ "\n\n" ++ p.2)) := by
  simp only [docBlock, List.all_eq_true]
  rw [if_pos]
  intro p hp
  exact h p hp

theorem writeImagesLoop_lookup_of_not_mem (mid : String) (uidx : Option Nat)
    (imgs : List (String × List ContentItem)) {fid : String} :
    ∀ (files : List NewFile) (c : Cache), fid ∉ idsOf files →
      alLookup fid (writeImagesLoop mid uidx imgs files c) = alLookup fid c := by
  intro files
  induction files with
  | nil => intro c _; simp [writeImagesLoop]
  | cons f rest ih =>
      intro c h
      have hne : fid ≠ f.id := by
        intro e; exact h (by simp [idsOf, e])
      have hrest : fid ∉ idsOf rest := by
        intro hm; exact h (by simp [idsOf] at hm ⊢; right; exact hm)
      rw [writeImagesLoop, ih _ hrest, alLookup_alInsert_of_ne _ _ hne]

theorem writeImagesLoop_lookup_of_mem (mid : String) (uidx : Option Nat)
    (imgs : List (String × List ContentItem)) {fid : String} :
    ∀ (files : List NewFile) (c : Cache), fid ∈ idsOf files →
      ∃ e, alLookup fid (writeImagesLoop mid uidx imgs files c) = some e ∧
        e.ocr_markdown = none ∧
        e.images = some ((alLookup fid imgs).getD []) ∧
        e.message_id = some mid ∧ e.user_msg_index = uidx := by
  intro files
  induction files with
  | nil => intro c h; simp [idsOf] at h
  | cons f rest ih =>
      intro c h
      by_cases hr : fid ∈ idsOf rest
      · exact ih _ hr
      · have hfe : fid = f.id := by
          rcases List.mem_cons.mp h with he | h₂
          · exact he
          · exact absurd h₂ hr
        subst hfe
        rw [writeImagesLoop, writeImagesLoop_lookup_of_not_mem _ _ _ _ _ hr,
          alLookup_alInsert_self]
        exact ⟨_, rfl, rfl, rfl, rfl, rfl⟩

theorem writeImagesLoop_lookup_of_nodup (mid : String) (uidx : Option Nat)
    (imgs : List (String × List ContentItem)) {f : NewFile} :
    ∀ (files : List NewFile) (c : Cache), (idsOf files).Nodup → f ∈ files →
      alLookup f.id (writeImagesLoop mid uidx imgs files c) =
        some { message_id := some mid, user_msg_index := uidx,
               filename := some f.name,
               images := some ((alLookup f.id imgs).getD []),
               ocr_markdown := none } := by
  intro files
  induction files with
  | nil => intro c _ h; simp at h
  | cons g rest ih =>
      intro c hnd hm
      have hnd₀ : (g.id :: idsOf rest).Nodup := hnd
      have hnd' : (idsOf rest).Nodup := (List.nodup_cons.mp hnd₀).2
      rcases List.mem_cons.mp hm with he | hr
      · subst he
        have hno : f.id ∉ idsOf rest := (List.nodup_cons.mp hnd₀).1
        rw [writeImagesLoop, writeImagesLoop_lookup_of_not_mem _ _ _ _ _ hno,
          alLookup_alInsert_self]
      · exact ih _ hnd' hr

theorem processGo_lookup_of_none {fetch : NewFile → Except String (List ContentItem)}
    {fid : String} :
    ∀ (files : List NewFile) (acc : List (String × List ContentItem)),
      (∀ g ∈ files, g.id = fid → g.url = "" ∨ (fetch g).isOk = false) →
      alLookup fid (processGo fetch files acc) = alLookup fid acc := by
  intro files
  induction files with
  | nil => intro acc _; simp [processGo]
  | cons g rest ih =>
      intro acc h
      have hrest : ∀ g₀ ∈ rest, g₀.id = fid → g₀.url = "" ∨ (fetch g₀).isOk = false := by
        intro g₀ hg₀ he; exact h g₀ (by simp [hg₀]) he
      by_cases hu : g.url = ""
      · simp only [processGo, if_pos hu]; exact ih _ hrest
      · match hf : fetch g with
        | .error e => simp only [processGo, if_neg hu, hf]; exact ih _ hrest
        | .ok blocks =>
            by_cases hid : g.id = fid
            · have := h g (by simp) hid
              rcases this with h₁ | h₁
              · exact absurd h₁ hu
              · rw [hf] at h₁; simp [Except.isOk, Except.toBool] at h₁
            · by_cases hz : g.id ≠ ""
              · simp only [processGo, if_neg hu, hf, if_pos hz]
                rw [ih _ hrest, alLookup_alInsert_of_ne _ _ (fun e => hid e.symm)]
              · simp only [processGo, if_neg hu, hf, if_neg hz]
                exact ih _ hrest

theorem processGo_lookup_of_ok {fetch : NewFile → Except String (List ContentItem)}
    {f : NewFile} {bs : List ContentItem} :
    ∀ (files : List NewFile) (acc : List (String × List ContentItem)),
      (idsOf files).Nodup → f ∈ files → fetch f = .ok bs → f.url ≠ "" → f.id ≠ "" →
      alLookup f.id (processGo fetch files acc) = some bs := by
  intro files
  induction files with
  | nil => intro acc _ h; simp at h
  | cons g rest ih =>
      intro acc hnd hm hf hu hz
      have hnd₀ : (g.id :: idsOf rest).Nodup := hnd
      have hnd' : (idsOf rest).Nodup := (List.nodup_cons.mp hnd₀).2
      rcases List.mem_cons.mp hm with he | hr
      · subst he
        have hno : f.id ∉ idsOf rest := (List.nodup_cons.mp hnd₀).1
        have hnone : ∀ g₀ ∈ rest, g₀.id = f.id → g₀.url = "" ∨ (fetch g₀).isOk = false := by
          intro g₀ hg₀ he
          exact absurd (by simpa [idsOf, he] using List.mem_map_of_mem (fun x => x.id) hg₀) hno
        simp only [processGo, if_neg hu, hf, if_pos hz]
        rw [processGo_lookup_of_none _ _ hnone, alLookup_alInsert_self]
      · by_cases hu₀ : g.url = ""
        · simp only [processGo, if_pos hu₀]; exact ih _ hnd' hr hf hu hz
        · match hg : fetch g with
          | .error e => simp only [processGo, if_neg hu₀, hg]; exact ih _ hnd' hr hf hu hz
          | .ok blocks =>
              by_cases hz₀ : g.id ≠ ""
              · simp only [processGo, if_neg hu₀, hg, if_pos hz₀]
                exact ih _ hnd' hr hf hu hz
              · simp only [processGo, if_neg hu₀, hg, if_neg hz₀]
                exact ih _ hnd' hr hf hu hz

theorem mem_setInsert_self (x : String) (s : List String) : x ∈ setInsert x s := by
  by_cases h : x ∈ s <;> simp [setInsert, h]

theorem mem_setInsert_of_mem {y : String} (x : String) {s : List String}
    (h : y ∈ s) : y ∈ setInsert x s := by
  by_cases hx : x ∈ s <;> simp [setInsert, hx, h]

theorem mem_of_mem_setInsert {y x : String} {s : List String}
    (h : y ∈ setInsert x s) : y ∈ s ∨ y = x := by
  by_cases hx : x ∈ s
  · simp [setInsert, hx] at h; exact Or.inl h
  · simp [setInsert, hx] at h; exact h

theorem detectGo_processed_grows :
    ∀ (files : List HostFile) (pr : List String) (acc : List NewFile),
      ∀ i ∈ pr, i ∈ (detectGo files pr acc).2 := by
  intro files
  induction files with
  | nil => intro pr acc i hi; simpa [detectGo] using hi
  | cons f rest ih =>
      intro pr acc i hi
      match ht : truthyId f with
      | none => rw [detectGo, ht]; exact ih pr acc i hi
      | some fid =>
          by_cases hm : fid ∈ pr
          · rw [detectGo, ht]; simp only [if_pos hm]; exact ih pr acc i hi
          · rw [detectGo, ht]; simp only [if_neg hm]
            exact ih _ _ i (mem_setInsert_of_mem fid hi)

theorem detectGo_acc_extends :
    ∀ (files : List HostFile) (pr : List String) (acc : List NewFile),
      ∃ l, (detectGo files pr acc).1 = acc ++ l := by
  intro files
  induction files with
  | nil => intro pr acc; exact ⟨[], by simp [detectGo]⟩
  | cons f rest ih =>
      intro pr acc
      match ht : truthyId f with
      | none => rw [detectGo, ht]; exact ih pr acc
      | some fid =>
          by_cases hm : fid ∈ pr
          · rw [detectGo, ht]; simp only [if_pos hm]; exact ih pr acc
          · rw [detectGo, ht]; simp only [if_neg hm]
            obtain ⟨l, hl⟩ := ih (setInsert fid pr) (acc ++ [mkNewFile f fid])
            exact ⟨mkNewFile f fid :: l, by simp [hl]⟩

theorem detectGo_inv :
    ∀ (files : List HostFile) (pr : List String) (acc : List NewFile),
      (∀ i ∈ idsOf acc, i ∈ pr) → (idsOf acc).Nodup →
      (idsOf (detectGo files pr acc).1).Nodup ∧
        ∀ i ∈ idsOf (detectGo files pr acc).1, i ∈ (detectGo files pr acc).2 := by
  intro files
  induction files with
  | nil =>
      intro pr acc hsub hnd
      refine ⟨by simpa [detectGo] using hnd, ?_⟩
      intro i hi
      exact hsub i (by simpa [detectGo] using hi)
  | cons f rest ih =>
      intro pr acc hsub hnd
      match ht : truthyId f with
      | none => rw [detectGo, ht]; exact ih pr acc hsub hnd
      | some fid =>
          by_cases hm : fid ∈ pr
          · rw [detectGo, ht]; simp only [if_pos hm]; exact ih pr acc hsub hnd
          · rw [detectGo, ht]; simp only [if_neg hm]
            have hids : idsOf (acc ++ [mkNewFile f fid]) = idsOf acc ++ [fid] := by
              simp [idsOf, mkNewFile]
            refine ih _ _ ?_ ?_
            · intro i hi
              rw [hids] at hi
              rcases List.mem_append.mp hi with h₁ | h₁
              · exact mem_setInsert_of_mem fid (hsub i h₁)
              · simp at h₁; exact h₁ ▸ mem_setInsert_self fid pr
            · rw [hids]
              refine List.Nodup.append hnd (by simp) ?_
              intro a ha hb
              simp at hb; subst hb
              exact hm (hsub a ha)

theorem detectGo_skips_processed {fid : String} :
    ∀ (files : List HostFile) (pr : List String) (acc : List NewFile),
      fid ∈ pr → fid ∉ idsOf acc → fid ∉ idsOf (detectGo files pr acc).1 := by
  intro files
  induction files with
  | nil => intro pr acc hp ha; simpa [detectGo] using ha
  | cons f rest ih =>
      intro pr acc hp ha
      match ht : truthyId f with
      | none => rw [detectGo, ht]; exact ih pr acc hp ha
      | some fid₀ =>
          by_cases hm : fid₀ ∈ pr
          · rw [detectGo, ht]; simp only [if_pos hm]; exact ih pr acc hp ha
          · rw [detectGo, ht]; simp only [if_neg hm]
            have hne : fid₀ ≠ fid := fun e => hm (e ▸ hp)
            refine ih _ _ (mem_setInsert_of_mem fid₀ hp) ?_
            intro hmem
            rw [show idsOf (acc ++ [mkNewFile f fid₀]) = idsOf acc ++ [fid₀] from
              by simp [idsOf, mkNewFile]] at hmem
            rcases List.mem_append.mp hmem with h₁ | h₁
            · exact ha h₁
            · simp at h₁; exact hne h₁.symm

theorem detectGo_detects {f : HostFile} {fid : String} :
    ∀ (files : List HostFile) (pr : List String) (acc : List NewFile),
      f ∈ files → truthyId f = some fid → fid ∉ pr →
      fid ∈ idsOf (detectGo files pr acc).1 := by
  intro files
  induction files with
  | nil => intro pr acc h; simp at h
  | cons g rest ih =>
      intro pr acc hm ht hp
      match hg : truthyId g with
      | none =>
          rw [detectGo, hg]
          have hfr : f ∈ rest := by
            rcases List.mem_cons.mp hm with he | hr
            · subst he; rw [hg] at ht; exact absurd ht (by simp)
            · exact hr
          exact ih pr acc hfr ht hp
      | some fid₀ =>
          by_cases hmem : fid₀ ∈ pr
          · rw [detectGo, hg]; simp only [if_pos hmem]
            have hfr : f ∈ rest := by
              rcases List.mem_cons.mp hm with he | hr
              · subst he; rw [hg] at ht
                injection ht with ht'; subst ht'; exact absurd hmem hp
              · exact hr
            exact ih pr acc hfr ht hp
          · rw [detectGo, hg]; simp only [if_neg hmem]
            by_cases hfe : fid₀ = fid
            · subst hfe
              obtain ⟨l, hl⟩ := detectGo_acc_extends rest (setInsert fid₀ pr)
                (acc ++ [mkNewFile g fid₀])
              rw [hl]
              simp [idsOf, mkNewFile]
            · have hfr : f ∈ rest := by
                rcases List.mem_cons.mp hm with he | hr
                · subst he; rw [hg] at ht
                  injection ht with ht'; exact absurd ht' hfe
                · exact hr
              refine ih _ _ hfr ht ?_
              intro hfid
              rcases mem_of_mem_setInsert hfid with h₁ | h₁
              · exact hp h₁
              · exact hfe h₁.symm

theorem inletStep_eq_pos {fetch : NewFile → Except String (List ContentItem)}
    {token : String} {s : SessionState} {r : InletReq}
    (h₀ : validateSkip r = false)
    (h₁ : (detectNewFiles r.files s.processed).1 ≠ [])
    (h₂ : optTruthy r.mid = true) :
    inletStep fetch token s r =
      ⟨⟨(detectNewFiles r.files s.processed).2,
        writeImagesLoop (r.mid.getD "") none
          (processPdfToBase64Images fetch token (detectNewFiles r.files s.processed).1)
          (detectNewFiles r.files s.processed).1 s.cache⟩,
       idsOf (detectNewFiles r.files s.processed).1⟩ := by
  unfold inletStep
  rw [if_pos ⟨h₀, h₁, h₂⟩]
  rfl

theorem inletStep_state_processed (fetch : NewFile → Except String (List ContentItem))
    (token : String) (s : SessionState) (r : InletReq) :
    (inletStep fetch token s r).state.processed =
      (detectNewFiles r.files s.processed).2 := by
  unfold inletStep
  by_cases h : validateSkip r = false ∧
      (detectNewFiles r.files s.processed).1 ≠ [] ∧ optTruthy r.mid = true
  · rw [if_pos h]
  · rw [if_neg h]

theorem inletStep_dispatched (fetch : NewFile → Except String (List ContentItem))
    (token : String) (s : SessionState) (r : InletReq) :
    (inletStep fetch token s r).dispatched = idsOf (detectNewFiles r.files s.processed).1 ∨
      (inletStep fetch token s r).dispatched = [] := by
  unfold inletStep
  by_cases h : validateSkip r = false ∧
      (detectNewFiles r.files s.processed).1 ≠ [] ∧ optTruthy r.mid = true
  · rw [if_pos h]; exact Or.inl rfl
  · rw [if_neg h]; exact Or.inr rfl

theorem inletStep_cache_lookup_of_processed
    (fetch : NewFile → Except String (List ContentItem)) (token : String)
    (s : SessionState) (r : InletReq) {fid : String} (h : fid ∈ s.processed) :
    alLookup fid (inletStep fetch token s r).state.cache = alLookup fid s.cache := by
  have hno : fid ∉ idsOf (detectNewFiles r.files s.processed).1 :=
    detectGo_skips_processed _ _ _ h (by simp [idsOf])
  unfold inletStep
  by_cases hc : validateSkip r = false ∧
      (detectNewFiles r.files s.processed).1 ≠ [] ∧ optTruthy r.mid = true
  · rw [if_pos hc]
    exact writeImagesLoop_lookup_of_not_mem _ _ _ _ _ hno
  · rw [if_neg hc]

end Lemmas

section ClaimTheorems

/-- C1 counterexample: the detector reserves a file id before the route is
decided, so a file first submitted in a request without a current message id
is reserved but never dispatched and never written — zero dispatches, not
exactly one — and a resubmission (even with a message id) detects nothing
new, so the file's content is lost for the session.  The same happens for a
request the validate node skips: the metadata carries no user id (the user
id only came from the user dict, which `inlet` does not pass into the graph
state), yet the detector has already reserved the file. -/
theorem c1_reserved_without_dispatch_counterexample :
    (inletStep (fun _ => .ok [.imageUrl "i"]) "t" ⟨[], []⟩
      ⟨[⟨some "fid1", none, some "application/pdf", "/u1", some "a.pdf"⟩],
        some "u1", some "c1", none, []⟩).dispatched = [] ∧
    "fid1" ∈ (inletStep (fun _ => .ok [.imageUrl "i"]) "t" ⟨[], []⟩
      ⟨[⟨some "fid1", none, some "application/pdf", "/u1", some "a.pdf"⟩],
        some "u1", some "c1", none, []⟩).state.processed ∧
    alLookup "fid1" (inletStep (fun _ => .ok [.imageUrl "i"]) "t" ⟨[], []⟩
      ⟨[⟨some "fid1", none, some "application/pdf", "/u1", some "a.pdf"⟩],
        some "u1", some "c1", none, []⟩).state.cache = none ∧
    (inletStep (fun _ => .ok [.imageUrl "i"]) "t"
      (inletStep (fun _ => .ok [.imageUrl "i"]) "t" ⟨[], []⟩
        ⟨[⟨some "fid1", none, some "application/pdf", "/u1", some "a.pdf"⟩],
          some "u1", some "c1", none, []⟩).state
      ⟨[⟨some "fid1", none, some "application/pdf", "/u1", some "a.pdf"⟩],
        some "u1", some "c1", some "m2", []⟩).dispatched = [] ∧
    alLookup "fid1" (inletStep (fun _ => .ok [.imageUrl "i"]) "t"
      (inletStep (fun _ => .ok [.imageUrl "i"]) "t" ⟨[], []⟩
        ⟨[⟨some "fid1", none, some "application/pdf", "/u1", some "a.pdf"⟩],
          some "u1", some "c1", none, []⟩).state
      ⟨[⟨some "fid1", none, some "application/pdf", "/u1", some "a.pdf"⟩],
        some "u1", some "c1", some "m2", []⟩).state.cache = none ∧
    (inletStep (fun _ => .ok [.imageUrl "i"]) "t" ⟨[], []⟩
      ⟨[⟨some "fid1", none, some "application/pdf", "/u1", some "a.pdf"⟩],
        none, some "c1", some "m1", []⟩).dispatched = [] ∧
    "fid1" ∈ (inletStep (fun _ => .ok [.imageUrl "i"]) "t" ⟨[], []⟩
      ⟨[⟨some "fid1", none, some "application/pdf", "/u1", some "a.pdf"⟩],
        none, some "c1", some "m1", []⟩).state.processed ∧
    alLookup "fid1" (inletStep (fun _ => .ok [.imageUrl "i"]) "t" ⟨[], []⟩
      ⟨[⟨some "fid1", none, some "application/pdf", "/u1", some "a.pdf"⟩],
        none, some "c1", some "m1", []⟩).state.cache = none := by
  decide

/-- C1 amended: when the first request carries a truthy current message id
and is not skipped by the validate node (its metadata yields truthy user and
chat ids), submitting the same file id in two separate inlet requests of one
session yields exactly one extraction dispatch and one artifact write; the
detector excludes any id already recorded in the session's reserved set, so
the second request neither re-dispatches the file nor changes its cache
entry.  Without these conditions the detector still reserves the file but
the route dispatches and writes nothing (see the counterexample). -/
theorem c1_dedup_single_dispatch
    (fetch : NewFile → Except String (List ContentItem)) (token : String)
    (s : SessionState) (r₁ r₂ : InletReq) (f g : HostFile) (fid : String)
    (hf₁ : f ∈ r₁.files) (hpdf₁ : isPdf f = true) (hid₁ : truthyId f = some fid)
    (hnew : fid ∉ s.processed) (hskip : validateSkip r₁ = false)
    (hmid : optTruthy r₁.mid = true)
    (hg₂ : g ∈ r₂.files) (hpdf₂ : isPdf g = true) (hid₂ : truthyId g = some fid) :
    (inletStep fetch token s r₁).dispatched.count fid = 1 ∧
    (alLookup fid (inletStep fetch token s r₁).state.cache).isSome = true ∧
    fid ∉ (inletStep fetch token (inletStep fetch token s r₁).state r₂).dispatched ∧
    alLookup fid (inletStep fetch token (inletStep fetch token s r₁).state r₂).state.cache
      = alLookup fid (inletStep fetch token s r₁).state.cache := by
  have hmemf : f ∈ r₁.files.filter isPdf := List.mem_filter.mpr ⟨hf₁, hpdf₁⟩
  have hin : fid ∈ idsOf (detectNewFiles r₁.files s.processed).1 :=
    detectGo_detects _ _ _ hmemf hid₁ hnew
  have hinv := detectGo_inv (r₁.files.filter isPdf) s.processed []
    (by simp [idsOf]) (by simp [idsOf])
  have hne : (detectNewFiles r₁.files s.processed).1 ≠ [] := by
    intro h; rw [detectNewFiles] at hin; rw [detectNewFiles] at h
    rw [h] at hin; simp [idsOf] at hin
  have hstep := @inletStep_eq_pos fetch token s r₁ hskip hne hmid
  have hproc : fid ∈ (inletStep fetch token s r₁).state.processed := by
    rw [hstep]; exact hinv.2 fid hin
  refine ⟨?_, ?_, ?_, ?_⟩
  · rw [hstep]
    exact List.count_eq_one_of_mem hinv.1 hin
  · rw [hstep]
    obtain ⟨e, he, -⟩ := writeImagesLoop_lookup_of_mem (r₁.mid.getD "") none
      (processPdfToBase64Images fetch token (detectNewFiles r₁.files s.processed).1)
      (detectNewFiles r₁.files s.processed).1 s.cache hin
    rw [he]; rfl
  · have hno : fid ∉ idsOf (detectNewFiles r₂.files
        (inletStep fetch token s r₁).state.processed).1 := by
      rw [inletStep_state_processed]
      refine detectGo_skips_processed _ _ _ ?_ (by simp [idsOf])
      rw [← inletStep_state_processed fetch token s r₁]
      exact hproc
    rcases inletStep_dispatched fetch token (inletStep fetch token s r₁).state r₂ with hd | hd
    · rw [hd]; exact hno
    · rw [hd]; simp
  · exact inletStep_cache_lookup_of_processed fetch token _ r₂ hproc

/-- Witness for C1 at a concrete session: one PDF file `fid1` submitted in
two identical requests. -/
theorem c1_dedup_single_dispatch_witness :
    (inletStep (fun _ => .ok [.imageUrl "i"]) "t" ⟨[], []⟩
      ⟨[⟨some "fid1", none, some "application/pdf", "/u1", some "a.pdf"⟩],
        some "u1", some "c1", some "m1", []⟩).dispatched.count "fid1" = 1 ∧
    (alLookup "fid1" (inletStep (fun _ => .ok [.imageUrl "i"]) "t" ⟨[], []⟩
      ⟨[⟨some "fid1", none, some "application/pdf", "/u1", some "a.pdf"⟩],
        some "u1", some "c1", some "m1", []⟩).state.cache).isSome = true ∧
    "fid1" ∉ (inletStep (fun _ => .ok [.imageUrl "i"]) "t"
      (inletStep (fun _ => .ok [.imageUrl "i"]) "t" ⟨[], []⟩
        ⟨[⟨some "fid1", none, some "application/pdf", "/u1", some "a.pdf"⟩],
          some "u1", some "c1", some "m1", []⟩).state
      ⟨[⟨some "fid1", none, some "application/pdf", "/u1", some "a.pdf"⟩],
        some "u1", some "c1", some "m1", []⟩).dispatched ∧
    alLookup "fid1" (inletStep (fun _ => .ok [.imageUrl "i"]) "t"
      (inletStep (fun _ => .ok [.imageUrl "i"]) "t" ⟨[], []⟩
        ⟨[⟨some "fid1", none, some "application/pdf", "/u1", some "a.pdf"⟩],
          some "u1", some "c1", some "m1", []⟩).state
      ⟨[⟨some "fid1", none, some "application/pdf", "/u1", some "a.pdf"⟩],
        some "u1", some "c1", some "m1", []⟩).state.cache
      = alLookup "fid1" (inletStep (fun _ => .ok [.imageUrl "i"]) "t" ⟨[], []⟩
      ⟨[⟨some "fid1", none, some "application/pdf", "/u1", some "a.pdf"⟩],
        some "u1", some "c1", some "m1", []⟩).state.cache :=
  c1_dedup_single_dispatch (fun _ => .ok [.imageUrl "i"]) "t" ⟨[], []⟩
    ⟨[⟨some "fid1", none, some "application/pdf", "/u1", some "a.pdf"⟩], some "u1", some "c1", some "m1", []⟩
    ⟨[⟨some "fid1", none, some "application/pdf", "/u1", some "a.pdf"⟩], some "u1", some "c1", some "m1", []⟩
    ⟨some "fid1", none, some "application/pdf", "/u1", some "a.pdf"⟩
    ⟨some "fid1", none, some "application/pdf", "/u1", some "a.pdf"⟩
    "fid1" (by simp) (by decide) (by decide) (by simp) (by decide) (by decide)
    (by simp) (by decide) (by decide)

/-- C9 counterexample: session with file `fid1` whose extraction never
completes (the batch download raises and the per-file fallback download also
fails).  The reservation survives: the cache holds only an empty images
entry, and a resubmission of the same file detects nothing new, so the file
can never be processed again in this session — contrary to the claimed
release of the reservation. -/
theorem c9_reservation_never_released_counterexample :
    "fid1" ∈ (detectNewFiles
        [⟨some "fid1", none, some "application/pdf", "/u1", some "a.pdf"⟩] []).2 ∧
    alLookup "fid1" (processFilesWithPaddleocr
        ⟨fun _ => .error "download failed", fun _ => .error "ocr failed",
         fun _ => .error "download failed"⟩ "t"
        (detectNewFiles
          [⟨some "fid1", none, some "application/pdf", "/u1", some "a.pdf"⟩] []).1
        "m1" 0 []).cache
      = some ⟨some "m1", some 0, some "a.pdf", some [], none⟩ ∧
    (detectNewFiles
        [⟨some "fid1", none, some "application/pdf", "/u1", some "a.pdf"⟩]
        (detectNewFiles
          [⟨some "fid1", none, some "application/pdf", "/u1", some "a.pdf"⟩] []).2).1
      = [] ∧
    "fid1" ∈ (detectNewFiles
        [⟨some "fid1", none, some "application/pdf", "/u1", some "a.pdf"⟩]
        (detectNewFiles
          [⟨some "fid1", none, some "application/pdf", "/u1", some "a.pdf"⟩] []).2).2 := by
  decide

/-- C9 amended: the code never releases a reservation.  Once a file id is in
the session's reserved set, every later request keeps it reserved and never
dispatches that id again, regardless of whether its extraction ever
produced content. -/
theorem c9_reservation_permanent
    (fetch : NewFile → Except String (List ContentItem)) (token : String)
    (s : SessionState) (r : InletReq) (fid : String) (h : fid ∈ s.processed) :
    fid ∈ (inletStep fetch token s r).state.processed ∧
    fid ∉ (inletStep fetch token s r).dispatched := by
  constructor
  · rw [inletStep_state_processed]
    exact detectGo_processed_grows _ _ _ fid h
  · have hno : fid ∉ idsOf (detectNewFiles r.files s.processed).1 :=
      detectGo_skips_processed _ _ _ h (by simp [idsOf])
    rcases inletStep_dispatched fetch token s r with hd | hd
    · rw [hd]; exact hno
    · rw [hd]; simp

/-- Witness for C9 amended at a concrete session state. -/
theorem c9_reservation_permanent_witness :
    "fid1" ∈ (inletStep (fun _ => .error "dl") "t" ⟨["fid1"], []⟩
      ⟨[⟨some "fid1", none, some "application/pdf", "/u1", some "a.pdf"⟩],
        some "u1", some "c1", some "m1", []⟩).state.processed ∧
    "fid1" ∉ (inletStep (fun _ => .error "dl") "t" ⟨["fid1"], []⟩
      ⟨[⟨some "fid1", none, some "application/pdf", "/u1", some "a.pdf"⟩],
        some "u1", some "c1", some "m1", []⟩).dispatched :=
  c9_reservation_permanent (fun _ => .error "dl") "t" ⟨["fid1"], []⟩
    ⟨[⟨some "fid1", none, some "application/pdf", "/u1", some "a.pdf"⟩],
      some "u1", some "c1", some "m1", []⟩ "fid1" (by simp)

/-- C2: when the primary extraction attempt raises for a batch, the
secondary method runs exactly once for that batch, no exception escapes,
and afterwards every batch file's cache entry is of the rendered-images
kind (an images payload, no document text) — never a mix of kinds. -/
theorem c2_fallback_batch_uniform (o : PaddleOracle) (token : String)
    (files : List NewFile) (mid : String) (uidx : Nat) (cache : Cache)
    (hfail : (primaryPhase o mid uidx files cache).2 = true) :
    (processFilesWithPaddleocr o token files mid uidx cache).fallbackRuns = 1 ∧
    (processFilesWithPaddleocr o token files mid uidx cache).raised = false ∧
    ∀ f ∈ files, ∃ e,
      alLookup f.id (processFilesWithPaddleocr o token files mid uidx cache).cache
        = some e ∧ e.ocr_markdown = none ∧ e.images.isSome = true := by
  unfold processFilesWithPaddleocr
  rcases hpp : primaryPhase o mid uidx files cache with ⟨c, b⟩
  rw [hpp] at hfail
  simp only at hfail
  subst hfail
  refine ⟨rfl, rfl, ?_⟩
  intro f hf
  have hmem : f.id ∈ idsOf files := List.mem_map_of_mem _ hf
  obtain ⟨e, he, h₁, h₂, -, -⟩ := writeImagesLoop_lookup_of_mem mid (some uidx)
    (processPdfToBase64Images o.fetch token files) files c hmem
  exact ⟨e, he, h₁, by rw [h₂]; rfl⟩

/-- Witness for C2: a batch of two files whose batch download raises. -/
theorem c2_fallback_batch_uniform_witness :
    (processFilesWithPaddleocr
      ⟨fun _ => .error "engine unavailable", fun _ => .ok "md",
       fun f => .ok [.imageUrl ("img-" ++ f.id)]⟩ "t"
      [⟨"/u1", "a.pdf", "fid1"⟩, ⟨"/u2", "b.pdf", "fid2"⟩]
      "m1" 0 []).fallbackRuns = 1 ∧
    (processFilesWithPaddleocr
      ⟨fun _ => .error "engine unavailable", fun _ => .ok "md",
       fun f => .ok [.imageUrl ("img-" ++ f.id)]⟩ "t"
      [⟨"/u1", "a.pdf", "fid1"⟩, ⟨"/u2", "b.pdf", "fid2"⟩]
      "m1" 0 []).raised = false ∧
    ∀ f ∈ [NewFile.mk "/u1" "a.pdf" "fid1", NewFile.mk "/u2" "b.pdf" "fid2"], ∃ e,
      alLookup f.id (processFilesWithPaddleocr
        ⟨fun _ => .error "engine unavailable", fun _ => .ok "md",
         fun f => .ok [.imageUrl ("img-" ++ f.id)]⟩ "t"
        [⟨"/u1", "a.pdf", "fid1"⟩, ⟨"/u2", "b.pdf", "fid2"⟩]
        "m1" 0 []).cache = some e ∧ e.ocr_markdown = none ∧ e.images.isSome = true :=
  c2_fallback_batch_uniform
    ⟨fun _ => .error "engine unavailable", fun _ => .ok "md",
     fun f => .ok [.imageUrl ("img-" ++ f.id)]⟩ "t"
    [⟨"/u1", "a.pdf", "fid1"⟩, ⟨"/u2", "b.pdf", "fid2"⟩] "m1" 0 [] (by decide)

/-- C3 counterexample: a batch of three files where the download of file 2
fails (so the batch download raises and the per-file fallback download of
file 2 fails again).  Files 1 and 3 receive their image artifacts and no
exception escapes, but — contrary to the claim — the failed file's id is
NOT absent from the session cache: it is present with an empty images
payload. -/
theorem c3_failed_file_present_counterexample :
    (processFilesWithPaddleocr
      ⟨fun _ => .error "download failed: b.pdf", fun _ => .ok "md",
       fun f => if f.id = "fid2" then .error "HTTP 500"
                else .ok [.imageUrl ("img-" ++ f.id)]⟩ "t"
      [⟨"/u1", "a.pdf", "fid1"⟩, ⟨"/u2", "b.pdf", "fid2"⟩, ⟨"/u3", "c.pdf", "fid3"⟩]
      "m1" 0 []).raised = false ∧
    alLookup "fid1" (processFilesWithPaddleocr
      ⟨fun _ => .error "download failed: b.pdf", fun _ => .ok "md",
       fun f => if f.id = "fid2" then .error "HTTP 500"
                else .ok [.imageUrl ("img-" ++ f.id)]⟩ "t"
      [⟨"/u1", "a.pdf", "fid1"⟩, ⟨"/u2", "b.pdf", "fid2"⟩, ⟨"/u3", "c.pdf", "fid3"⟩]
      "m1" 0 []).cache
      = some ⟨some "m1", some 0, some "a.pdf", some [.imageUrl "img-fid1"], none⟩ ∧
    alLookup "fid3" (processFilesWithPaddleocr
      ⟨fun _ => .error "download failed: b.pdf", fun _ => .ok "md",
       fun f => if f.id = "fid2" then .error "HTTP 500"
                else .ok [.imageUrl ("img-" ++ f.id)]⟩ "t"
      [⟨"/u1", "a.pdf", "fid1"⟩, ⟨"/u2", "b.pdf", "fid2"⟩, ⟨"/u3", "c.pdf", "fid3"⟩]
      "m1" 0 []).cache
      = some ⟨some "m1", some 0, some "c.pdf", some [.imageUrl "img-fid3"], none⟩ ∧
    alLookup "fid2" (processFilesWithPaddleocr
      ⟨fun _ => .error "download failed: b.pdf", fun _ => .ok "md",
       fun f => if f.id = "fid2" then .error "HTTP 500"
                else .ok [.imageUrl ("img-" ++ f.id)]⟩ "t"
      [⟨"/u1", "a.pdf", "fid1"⟩, ⟨"/u2", "b.pdf", "fid2"⟩, ⟨"/u3", "c.pdf", "fid3"⟩]
      "m1" 0 []).cache
      = some ⟨some "m1", some 0, some "b.pdf", some [], none⟩ := by
  decide

/-- C3 amended: a per-file error in the secondary method is contained — no
exception reaches the caller and the other files of the batch receive their
image artifacts — but the failed file is not absent from the cache: the
write loop still records an entry for it, with an empty images payload. -/
theorem c3_per_file_error_isolated (o : PaddleOracle) (token : String)
    (files : List NewFile) (mid : String) (uidx : Nat) (cache : Cache)
    (f : NewFile)
    (hfail : (primaryPhase o mid uidx files cache).2 = true)
    (hnd : (idsOf files).Nodup) (hf : f ∈ files)
    (hferr : (o.fetch f).isOk = false) (htok : token ≠ "") :
    (processFilesWithPaddleocr o token files mid uidx cache).raised = false ∧
    alLookup f.id (processFilesWithPaddleocr o token files mid uidx cache).cache
      = some ⟨some mid, some uidx, some f.name, some [], none⟩ ∧
    ∀ g ∈ files, ∀ bs, o.fetch g = .ok bs → g.url ≠ "" → g.id ≠ "" →
      alLookup g.id (processFilesWithPaddleocr o token files mid uidx cache).cache
        = some ⟨some mid, some uidx, some g.name, some bs, none⟩ := by
  have hnil : files ≠ [] := by intro h; rw [h] at hf; simp at hf
  have himgs : processPdfToBase64Images o.fetch token files = processGo o.fetch files [] := by
    rw [processPdfToBase64Images, if_neg hnil, if_neg htok]
  unfold processFilesWithPaddleocr
  rcases hpp : primaryPhase o mid uidx files cache with ⟨c, b⟩
  rw [hpp] at hfail
  simp only at hfail
  subst hfail
  refine ⟨rfl, ?_, ?_⟩
  · rw [writeImagesLoop_lookup_of_nodup mid (some uidx) _ files c hnd hf]
    have hnone : alLookup f.id (processPdfToBase64Images o.fetch token files) = none := by
      rw [himgs]
      rw [processGo_lookup_of_none files [] ?_]
      · rfl
      · intro g hg he
        have : g = f := List.inj_on_of_nodup_map hnd hg hf he
        subst this
        exact Or.inr hferr
    rw [hnone]
    rfl
  · intro g hg bs hok hurl hzid
    rw [writeImagesLoop_lookup_of_nodup mid (some uidx) _ files c hnd hg]
    have hsome : alLookup g.id (processPdfToBase64Images o.fetch token files) = some bs := by
      rw [himgs]
      exact processGo_lookup_of_ok files [] hnd hg hok hurl hzid
    rw [hsome]
    rfl

/-- Witness for C3 amended, at the concrete three-file batch where the
second file's downloads fail. -/
theorem c3_per_file_error_isolated_witness :
    (processFilesWithPaddleocr
      ⟨fun _ => .error "download failed: b.pdf", fun _ => .ok "md",
       fun f => if f.id = "fid2" then .error "HTTP 500"
                else .ok [.imageUrl ("img-" ++ f.id)]⟩ "t"
      [⟨"/u1", "a.pdf", "fid1"⟩, ⟨"/u2", "b.pdf", "fid2"⟩, ⟨"/u3", "c.pdf", "fid3"⟩]
      "m1" 0 []).raised = false ∧
    alLookup "fid2" (processFilesWithPaddleocr
      ⟨fun _ => .error "download failed: b.pdf", fun _ => .ok "md",
       fun f => if f.id = "fid2" then .error "HTTP 500"
                else .ok [.imageUrl ("img-" ++ f.id)]⟩ "t"
      [⟨"/u1", "a.pdf", "fid1"⟩, ⟨"/u2", "b.pdf", "fid2"⟩, ⟨"/u3", "c.pdf", "fid3"⟩]
      "m1" 0 []).cache
      = some ⟨some "m1", some 0, some "b.pdf", some [], none⟩ ∧
    ∀ g ∈ [NewFile.mk "/u1" "a.pdf" "fid1", NewFile.mk "/u2" "b.pdf" "fid2",
           NewFile.mk "/u3" "c.pdf" "fid3"],
      ∀ bs, (if g.id = "fid2" then Except.error "HTTP 500"
             else Except.ok [ContentItem.imageUrl ("img-" ++ g.id)]) = .ok bs →
        g.url ≠ "" → g.id ≠ "" →
        alLookup g.id (processFilesWithPaddleocr
          ⟨fun _ => .error "download failed: b.pdf", fun _ => .ok "md",
           fun f => if f.id = "fid2" then .error "HTTP 500"
                    else .ok [.imageUrl ("img-" ++ f.id)]⟩ "t"
          [⟨"/u1", "a.pdf", "fid1"⟩, ⟨"/u2", "b.pdf", "fid2"⟩, ⟨"/u3", "c.pdf", "fid3"⟩]
          "m1" 0 []).cache
          = some ⟨some "m1", some 0, some g.name, some bs, none⟩ :=
  c3_per_file_error_isolated
    ⟨fun _ => .error "download failed: b.pdf", fun _ => .ok "md",
     fun f => if f.id = "fid2" then .error "HTTP 500"
              else .ok [.imageUrl ("img-" ++ f.id)]⟩ "t"
    [⟨"/u1", "a.pdf", "fid1"⟩, ⟨"/u2", "b.pdf", "fid2"⟩, ⟨"/u3", "c.pdf", "fid3"⟩]
    "m1" 0 [] ⟨"/u2", "b.pdf", "fid2"⟩ (by decide) (by decide) (by decide)
    (by decide) (by decide)

/-- C5 counterexample: the order-update logic replaces the session's
message-order list whenever at least one user message carries an id, not
only when all of them do.  With a stored order of two anchors and a history
where only the first of two user turns has an id, the order is wholesale
replaced by a one-element list — a silent truncation. -/
theorem c5_truncation_counterexample :
    effectiveOrder none ["m1", "m2"]
      [⟨some "user", some "m3", .str "a"⟩, ⟨some "user", none, .str "b"⟩]
      = ["m3"] ∧
    (effectiveOrder none ["m1", "m2"]
      [⟨some "user", some "m3", .str "a"⟩, ⟨some "user", none, .str "b"⟩]).length
      < (["m1", "m2"] : List String).length ∧
    ¬ (∀ m ∈ [Msg.mk (some "user") (some "m3") (.str "a"),
              Msg.mk (some "user") none (.str "b")],
        m.role = some "user" → m.id.isSome = true) := by
  refine ⟨by decide, by decide, ?_⟩
  intro h
  have := h (Msg.mk (some "user") none (.str "b")) (by simp) rfl
  simp at this

/-- C5 amended: the order is wholesale replaced whenever the host-supplied
message list contains at least one user turn with an explicit id (the
collected id list wins); only when no user turn carries an id does the
stored order grow — by at most the current message id appended at the end —
and is then never truncated. -/
theorem c5_order_replace_or_grow (mid : Option String) (so : List String)
    (msgs : List Msg) :
    (orderFromMessages msgs = [] →
      (∃ t, effectiveOrder mid so msgs = so ++ t) ∧
      so.length ≤ (effectiveOrder mid so msgs).length) ∧
    (orderFromMessages msgs ≠ [] →
      effectiveOrder mid so msgs = orderFromMessages msgs) := by
  constructor
  · intro h
    have hne : ¬ orderFromMessages msgs ≠ [] := by simp [h]
    unfold effectiveOrder
    rw [if_neg hne]
    by_cases hc : optTruthy mid = true ∧ mid.getD "" ∉ so
    · rw [if_pos hc]
      exact ⟨⟨[mid.getD ""], rfl⟩, by simp⟩
    · rw [if_neg hc]
      exact ⟨⟨[], by simp⟩, le_refl _⟩
  · intro h
    unfold effectiveOrder
    rw [if_pos h]

/-- Witness for C5 amended: a request with no user-message ids grows the
stored order by the current message id. -/
theorem c5_order_replace_or_grow_witness :
    (∃ t, effectiveOrder (some "m2") ["m1"] [⟨some "user", none, .str "hi"⟩]
      = ["m1"] ++ t) ∧
    (["m1"] : List String).length
      ≤ (effectiveOrder (some "m2") ["m1"] [⟨some "user", none, .str "hi"⟩]).length :=
  (c5_order_replace_or_grow (some "m2") ["m1"]
    [⟨some "user", none, .str "hi"⟩]).1 (by decide)

/-- C4: evaluation of the current rehydrator at a cache entry exactly as
written by the graph's VLM node (`message_id`, `filename`, `images`, but no
`user_msg_index`): the rehydrator raises `KeyError` instead of degrading to
plain text, contradicting the no-raise guarantee. -/
theorem c4_rehydrator_raises_on_missing_index :
    updateMessagesWithFiles [⟨some "user", none, .str "hi"⟩]
      [("f1", ⟨some "m1", none, some "a.pdf", some [], none⟩)]
      = .error "KeyError: user_msg_index" := by
  rfl

/-- C6: rehydration is a pure, deterministic function of its inputs.  A call
returns its inputs unchanged (the source builds only fresh structures and
never writes to its arguments), and a second call on the returned state
produces the same output, for the three-argument old-variant rehydrator and
for the current two-argument one alike. -/
theorem c6_rehydration_pure_deterministic (m : List Msg) (c : Cache)
    (o : List String) :
    (updateMessagesWithFilesOldCall m c o).2 = (m, c, o) ∧
    (updateMessagesWithFilesOldCall (updateMessagesWithFilesOldCall m c o).2.1
        (updateMessagesWithFilesOldCall m c o).2.2.1
        (updateMessagesWithFilesOldCall m c o).2.2.2).1
      = (updateMessagesWithFilesOldCall m c o).1 ∧
    (updateMessagesWithFilesCall m c).2 = (m, c) ∧
    (updateMessagesWithFilesCall (updateMessagesWithFilesCall m c).2.1
        (updateMessagesWithFilesCall m c).2.2).1
      = (updateMessagesWithFilesCall m c).1 :=
  ⟨rfl, rfl, rfl, rfl⟩

/-- C7: the rehydrated content of a user turn always factors as the fixed
sequence — original free text (when non-empty), then the document-text
block, then the labelled rendered-image blocks, then the pre-existing inline
images of the original message, unchanged and last — provided every
document artifact carries a display name (otherwise the code raises rather
than renders). -/
theorem c7_render_order (files : List FileInfo) (txt : String)
    (imgs : List ContentItem) (ns : List (Option String))
    (h : ∀ p ∈ ocrPartsOf files, p.1.isSome = true) :
    renderUserTurn files txt imgs ns =
      .ok (textSection txt ++ docSection files ++ imageSection files ns ++ imgs) := by
  unfold renderUserTurn
  by_cases hp : ocrPartsOf files = []
  · rw [if_neg (by simp [hp])]
    have hsec : docSection files = [] := by rw [docSection, if_pos hp]
    have haddAll : addAll ns ((ocrPartsOf files).map (fun p => p.1)) = ns := by
      rw [hp]; rfl
    by_cases hi : ((files.any fun f => imagesTruthy f.images) || decide (imgs ≠ [])) = true
    · rw [if_pos hi]
      rw [appendImageBlocks_acc files ns (if txt ≠ "" then [.text txt] else [])]
      rw [hsec, imageSection, haddAll]
      simp [textSection]
    · rw [if_neg hi]
      have hb : ((files.any fun f => imagesTruthy f.images) || decide (imgs ≠ [])) = false :=
        Bool.eq_false_iff.mpr hi
      have hor := Bool.or_eq_false_iff.mp hb
      have himgs : imgs = [] := by simpa using hor.2
      have hno : ∀ f ∈ files, imagesTruthy f.images = false := by
        intro f hf
        simpa using List.any_eq_false.mp hor.1 f hf
      have hzero : imageSection files ns = [] := by
        rw [imageSection, haddAll, appendImageBlocks_of_no_truthy hno]
      rw [hsec, hzero, himgs]
      simp [textSection]
  · rw [if_pos (by simp [hp])]
    rw [docBlock_ok h]
    have hsec : docSection files = [.text (pyJoin "\n\n"
        ((ocrPartsOf files).map fun p => fileLabel ++ " " ++ p.1.getD "" ++ "\n\n" ++ p.2))] := by
      rw [docSection, if_neg hp, docBlock_ok h]
    simp only [Except.map]
    rw [appendImageBlocks_acc files (addAll ns ((ocrPartsOf files).map (fun p => p.1)))
      ((if txt ≠ "" then [ContentItem.text txt] else []) ++ [ContentItem.text (pyJoin "\n\n"
        ((ocrPartsOf files).map fun p => fileLabel ++ " " ++ p.1.getD "" ++ "\n\n" ++ p.2))])]
    rw [hsec, imageSection]
    simp [textSection]

/-- Witness for C7: a turn with one document artifact, one image artifact,
free text, and one pre-existing inline image. -/
theorem c7_render_order_witness :
    renderUserTurn
      [⟨"fid1", some "a.pdf", none, some "Revenue: 100"⟩,
       ⟨"fid2", some "b.pdf", some [.imageUrl "i1"], none⟩]
      "summarize" [.imageUrl "e1"] [] =
      .ok (textSection "summarize"
        ++ docSection [⟨"fid1", some "a.pdf", none, some "Revenue: 100"⟩,
                       ⟨"fid2", some "b.pdf", some [.imageUrl "i1"], none⟩]
        ++ imageSection [⟨"fid1", some "a.pdf", none, some "Revenue: 100"⟩,
                         ⟨"fid2", some "b.pdf", some [.imageUrl "i1"], none⟩] []
        ++ [.imageUrl "e1"]) :=
  c7_render_order
    [⟨"fid1", some "a.pdf", none, some "Revenue: 100"⟩,
     ⟨"fid2", some "b.pdf", some [.imageUrl "i1"], none⟩]
    "summarize" [.imageUrl "e1"] [] (by decide)

/-- C8 counterexample: a user turn with plain text and no artifacts or
images.  The current rehydrator returns the turn as just its free text —
no text-only mode label is emitted (the text contains no mode marker). -/
theorem c8_no_text_only_label_counterexample :
    updateMessagesWithFiles [⟨some "user", none, .str "hi"⟩] []
      = .ok [⟨some "user", none, .items [.text "hi"]⟩] ∧
    (pySplitOn "hi" "[MODE:").length = 1 := by
  constructor
  · rfl
  · decide

/-- C8 amended: for a user turn with neither cached artifacts nor any
images, the current rehydrator emits no label at all — the content is just
the original free text — while the old-variant rehydrator appended the
`[MODE: TEXT_ONLY]` tag.  Only the historical variant labels text-only
turns. -/
theorem c8_text_only_labeling (files : List FileInfo) (txt : String)
    (ns : List (Option String))
    (hocr : ocrPartsOf files = [])
    (himg : ∀ f ∈ files, imagesTruthy f.images = false) :
    renderUserTurn files txt [] ns = .ok (textSection txt) ∧
    renderUserTurnOld files txt [] ns
      = .ok (textSection txt ++ [.text textOnlyModeLabel]) := by
  have hany : (files.any fun f => imagesTruthy f.images) = false := by
    rw [List.any_eq_false]
    intro f hf
    simp [himg f hf]
  have hcond : ((files.any fun f => imagesTruthy f.images)
      || decide (([] : List ContentItem) ≠ [])) = false := by
    rw [hany]; decide
  constructor
  · unfold renderUserTurn
    rw [if_neg (by simp [hocr]),
      if_neg (fun hx => Bool.false_ne_true (hcond ▸ hx))]
    simp [textSection]
  · unfold renderUserTurnOld
    rw [if_neg (by simp [hocr]),
      if_neg (fun hx => Bool.false_ne_true (hcond ▸ hx))]
    simp [textSection]

/-- Witness for C8 amended at a concrete text-only turn. -/
theorem c8_text_only_labeling_witness :
    renderUserTurn [] "hi" [] [] = .ok (textSection "hi") ∧
    renderUserTurnOld [] "hi" [] []
      = .ok (textSection "hi" ++ [.text textOnlyModeLabel]) :=
  c8_text_only_labeling [] "hi" [] (by decide) (by simp)

/-- C10: an inlet request whose metadata and user dict yield no user id or
no chat id returns the body unchanged: no session structures are created or
modified and the messages are not rewritten. -/
theorem c10_missing_ids_noop
    (fetch : NewFile → Except String (List ContentItem)) (token : String)
    (st : PipelineStore) (body : Body) (u : Option String)
    (h : optTruthy (optOr body.metadata.userId u) = false ∨
         optTruthy body.metadata.chatId = false) :
    inletTop fetch token st body u = (.ok body, st) := by
  unfold inletTop
  rw [if_neg]
  intro hc
  rcases h with h | h
  · rw [h] at hc; exact Bool.false_ne_true hc.1
  · rw [h] at hc; exact Bool.false_ne_true hc.2

/-- Witness for C10: a request carrying a user id but no chat id. -/
theorem c10_missing_ids_noop_witness :
    inletTop (fun _ => .ok []) "t" ⟨[], []⟩
      ⟨[⟨some "fid1", none, some "application/pdf", "/u1", some "a.pdf"⟩],
        ⟨some "u1", none, some "m1"⟩, []⟩ (some "uid")
      = (.ok ⟨[⟨some "fid1", none, some "application/pdf", "/u1", some "a.pdf"⟩],
          ⟨some "u1", none, some "m1"⟩, []⟩, ⟨[], []⟩) :=
  c10_missing_ids_noop (fun _ => .ok []) "t" ⟨[], []⟩
    ⟨[⟨some "fid1", none, some "application/pdf", "/u1", some "a.pdf"⟩],
      ⟨some "u1", none, some "m1"⟩, []⟩ (some "uid") (by decide)

end ClaimTheorems

end QwenOCR
